import Mathlib

/-!
Verification development for the resource-lifecycle orchestration scripts of
the `sagemaker-ml-pipeline` repository.

The Python scripts are shallowly embedded as Lean functions.  External
control-plane calls (`describe_endpoint`, `delete_model`, `invoke_endpoint`,
...) are represented by explicit oracles (`Nat → ...` fetch sequences, or an
explicit control-plane state record), and each embedded function additionally
returns the list of control-plane calls it issued, so that ordering and
frame properties can be stated.
-/

/-- Endpoint status values used by the scripts
(`monitor_endpoint.py`, `scripts/deploy_model.py`,
`scripts/cleanup_failed_resources.py`). -/
inductive EpStatus where
  | Creating
  | InService
  | Failed
  | Updating
  | Deleting
  | OutOfService
  deriving DecidableEq

/-- An error raised by a control-plane read call.  `notFound` models a boto3
`ClientError` whose message contains "does not exist"; `other` models every
other exception. -/
inductive FetchErr where
  | notFound
  | other
  deriving DecidableEq

/-- The four distinguishable ways `monitor_endpoint_deployment`
(`monitor_endpoint.py`, lines 20-73) can leave its polling loop: the
`InService` branch (returns `True`), the `Failed` branch (returns `False`),
the elapsed-time branch (returns `False`), and the `except` branch that
catches a `describe_endpoint` error (returns `False`). -/
inductive MonitorResult where
  | inService
  | failedState
  | timedOut
  | fetchError (e : FetchErr)
  deriving DecidableEq

/-- The boolean actually returned by `monitor_endpoint_deployment` for each
exit branch: only the `InService` branch returns `True`. -/
def MonitorResult.toBool : MonitorResult → Bool
  | .inService => true
  | _ => false

/-- The polling loop of `monitor_endpoint_deployment` (`monitor_endpoint.py`,
lines 20-73), started at iteration `k`.  At iteration `k` the elapsed wall
clock is `30 * k` seconds (the loop sleeps 30 seconds at the end of every
iteration).  `fetch k` is the outcome of the `describe_endpoint` call of
iteration `k`.  The returned `Nat` counts the `describe_endpoint` calls
performed.  Branch order follows the source: `InService`, then `Failed`,
then the `elapsed_time > max_wait_seconds` check, else sleep and loop; any
`describe_endpoint` error is caught by the `except` and ends the loop. -/
def monitorGo (fetch : Nat → Except FetchErr EpStatus) (maxWaitSeconds k : Nat) :
    MonitorResult × Nat :=
  match fetch k with
  | .error e => (.fetchError e, 1)
  | .ok s =>
    if s = .InService then (.inService, 1)
    else if s = .Failed then (.failedState, 1)
    else if maxWaitSeconds < 30 * k then (.timedOut, 1)
    else
      let r := monitorGo fetch maxWaitSeconds (k + 1)
      (r.1, r.2 + 1)
termination_by maxWaitSeconds / 30 + 1 - k
decreasing_by omega

/-- `monitor_endpoint_deployment(endpoint_name, max_wait_minutes)`: the
polling loop started at iteration 0 with `max_wait_seconds =
max_wait_minutes * 60`. -/
def monitor_endpoint_deployment (fetch : Nat → Except FetchErr EpStatus)
    (maxWaitMinutes : Nat) : MonitorResult × Nat :=
  monitorGo fetch (maxWaitMinutes * 60) 0

/-- A status is terminal for the endpoint monitor when it stops the loop
via the `InService` or `Failed` branch. -/
def isTerminalStatus : EpStatus → Bool
  | .InService => true
  | .Failed => true
  | _ => false

/-- The monitor exit branch taken on a terminal status. -/
def terminalResult : EpStatus → MonitorResult
  | .Failed => .failedState
  | _ => .inService

/-- Status of a Glue workflow run as read by `run_glue_workflow`
(`deploy.py`, line 138): `WorkflowRunProperties.get('Status', 'RUNNING')`. -/
inductive GlueStatus where
  | completed
  | failed
  | running
  deriving DecidableEq

/-- Exit of `run_glue_workflow`'s monitoring loop: `break` on `COMPLETED`,
`sys.exit(1)` on `FAILED`. -/
inductive GlueOutcome where
  | workflowCompleted
  | exitFailure
  deriving DecidableEq

/-- The `while True` monitoring loop of `run_glue_workflow` (`deploy.py`,
lines 136-149), given `fuel` remaining iterations.  The source loop has no
attempt or wall-clock ceiling, so it only terminates when the status
sequence reaches `COMPLETED` or `FAILED`; `none` means the loop is still
running after `fuel` polls. -/
def glueLoop (status : Nat → GlueStatus) (k : Nat) : Nat → Option GlueOutcome
  | 0 => none
  | fuel + 1 =>
    match status k with
    | .completed => some .workflowCompleted
    | .failed => some .exitFailure
    | .running => glueLoop status (k + 1) fuel

/-- Control-plane calls issued by the scripts, used to record call traces. -/
inductive SMCall where
  | createTrainingJob
  | createModel
  | createEndpointConfig
  | createEndpoint
  | describeEndpoint
  | waiterPoll
  | invokeEndpoint
  | listObjects
  | listTrainingJobs
  | listEndpoints
  | deleteEndpoint
  | deleteEndpointConfig
  | deleteModel
  deriving DecidableEq

/-- Creation calls. -/
def SMCall.isCreate : SMCall → Bool
  | .createTrainingJob | .createModel | .createEndpointConfig | .createEndpoint => true
  | _ => false

/-- Calls that mutate control-plane resources (creations and deletions);
reads and endpoint invocations are not mutations. -/
def SMCall.isMutation : SMCall → Bool
  | .createTrainingJob | .createModel | .createEndpointConfig | .createEndpoint => true
  | .deleteEndpoint | .deleteEndpointConfig | .deleteModel => true
  | _ => false

/-- Exit of the boto3 `endpoint_in_service` waiter used by
`scripts/deploy_model.py` (lines 56-63) and
`scripts/deploy_model_github.py` (lines 125-132).  Per the botocore waiter
contract: the waiter polls `describe_endpoint`; status `InService` is the
success acceptor, status `Failed` is a failure acceptor that raises a
`WaiterError` at once, and exhausting `MaxAttempts` polls raises a
`WaiterError` ("max attempts exceeded"). -/
inductive WaiterOutcome where
  | ready
  | sawFailureState
  | maxAttemptsExceeded
  deriving DecidableEq

/-- The botocore waiter loop from poll index `k` with the given number of
attempts remaining; also returns the number of `describe_endpoint` polls
performed. -/
def waiterGo (fetch : Nat → EpStatus) (k : Nat) : Nat → WaiterOutcome × Nat
  | 0 => (.maxAttemptsExceeded, 0)
  | n + 1 =>
    match fetch k with
    | .InService => (.ready, 1)
    | .Failed => (.sawFailureState, 1)
    | _ =>
      let r := waiterGo fetch (k + 1) n
      (r.1, r.2 + 1)

/-- `waiter.wait(EndpointName=..., WaiterConfig={'Delay': 30,
'MaxAttempts': maxAttempts})`. -/
def waiterWait (fetch : Nat → EpStatus) (maxAttempts : Nat) : WaiterOutcome × Nat :=
  waiterGo fetch 0 maxAttempts

/-- Outcomes of the three creation calls of `deploy_model`, plus the
endpoint-status sequence observed by the waiter's `describe_endpoint`
polls.  A `false` creation flag means that creation call raises. -/
structure DeployEnv where
  createModelOk : Bool
  createConfigOk : Bool
  createEndpointOk : Bool
  endpointStatus : Nat → EpStatus

/-- How `deploy_model` of `scripts/deploy_model.py` ends.  Every raised
exception is caught by the function's `except` block, logged, and re-raised
(`raise e`, line 80), so it escapes to the caller. -/
inductive DeployResult where
  | completedRun
  | raisedCreateModel
  | raisedCreateConfig
  | raisedCreateEndpoint
  | raisedWaiterFailed
  | raisedWaiterTimeout
  deriving DecidableEq

/-- `deploy_model()` of `scripts/deploy_model.py` (lines 5-80): create the
Model, then the EndpointConfig, then the Endpoint, each step only reached
when the previous call returned; then wait for the endpoint with the
30s/20-attempt waiter and `describe_endpoint` once on success.  The second
component is the trace of control-plane calls issued. -/
def deploy_model (env : DeployEnv) : DeployResult × List SMCall :=
  if env.createModelOk = false then (.raisedCreateModel, [.createModel])
  else if env.createConfigOk = false then
    (.raisedCreateConfig, [.createModel, .createEndpointConfig])
  else if env.createEndpointOk = false then
    (.raisedCreateEndpoint, [.createModel, .createEndpointConfig, .createEndpoint])
  else
    let w := waiterWait env.endpointStatus 20
    match w.1 with
    | .ready =>
      (.completedRun, .createModel :: .createEndpointConfig :: .createEndpoint ::
        (List.replicate w.2 .waiterPoll ++ [.describeEndpoint]))
    | .sawFailureState =>
      (.raisedWaiterFailed, .createModel :: .createEndpointConfig :: .createEndpoint ::
        List.replicate w.2 .waiterPoll)
    | .maxAttemptsExceeded =>
      (.raisedWaiterTimeout, .createModel :: .createEndpointConfig :: .createEndpoint ::
        List.replicate w.2 .waiterPoll)

/-- Overall outcome classification of the pipeline run driven by
`scripts/deploy_model.py` when run as a script: the `__main__` block
(lines 82-86) has no handler, so a re-raised exception terminates the
interpreter with a traceback and a non-zero exit status, i.e. the run
fails; only a returned result dict counts as success.  There is no exit
path that reports a distinct timed-out outcome. -/
inductive RunOutcome where
  | Succeeded
  | Failed
  | TimedOut
  deriving DecidableEq

/-- The run outcome of executing `scripts/deploy_model.py`. -/
def deploy_model_script_outcome (env : DeployEnv) : RunOutcome :=
  match (deploy_model env).1 with
  | .completedRun => .Succeeded
  | _ => .Failed

/-- `deploy_model(model_artifacts_s3_path, ...)` of
`scripts/deploy_model_github.py` (lines 17-155): same strictly ordered
create Model / create EndpointConfig / create Endpoint sequence and the
same 30s/20-attempt waiter, but every exception is caught and turned into
`return None`; on waiter success it calls `describe_endpoint` and returns
the endpoint name only if the status is `InService`.  Returns the optional
success value and the trace of control-plane calls. -/
def deploy_model_github (env : DeployEnv) : Option Unit × List SMCall :=
  if env.createModelOk = false then (none, [.createModel])
  else if env.createConfigOk = false then
    (none, [.createModel, .createEndpointConfig])
  else if env.createEndpointOk = false then
    (none, [.createModel, .createEndpointConfig, .createEndpoint])
  else
    let w := waiterWait env.endpointStatus 20
    match w.1 with
    | .ready =>
      (if env.endpointStatus w.2 = .InService then some () else none,
        .createModel :: .createEndpointConfig :: .createEndpoint ::
          (List.replicate w.2 .waiterPoll ++ [.describeEndpoint]))
    | _ =>
      (none, .createModel :: .createEndpointConfig :: .createEndpoint ::
        List.replicate w.2 .waiterPoll)

/-- The per-sample loop shared by `test_batch_predictions`
(`test_endpoint.py`, lines 58-105) and `test_endpoint_predictions`
(`scripts/test_endpoint_predictions.py`, lines 33-68): iterate over the
sample indices `i, i+1, ...` with `remaining` samples left; each iteration
invokes the endpoint exactly once inside a per-sample `try`; on success the
pair `(i + 1, value)` is appended to the result list (the scripts label
samples from 1), on any per-sample exception nothing is appended and the
loop continues with the next sample.  `invoke j` is the combined outcome of
the `invoke_endpoint` call and response parsing for sample `j`.  The second
component is the trace of `invoke_endpoint` calls. -/
def testBatchGo (invoke : Nat → Except String α) (i : Nat) :
    Nat → List (Nat × α) × List SMCall
  | 0 => ([], [])
  | remaining + 1 =>
    let rest := testBatchGo invoke (i + 1) remaining
    match invoke i with
    | .ok v => ((i + 1, v) :: rest.1, .invokeEndpoint :: rest.2)
    | .error _ => (rest.1, .invokeEndpoint :: rest.2)

/-- `test_batch_predictions(endpoint_name, runtime_client, num_samples)`
(`test_endpoint.py`, lines 58-105): runs the per-sample loop over
`num_samples` samples and returns the `predictions` list, which is appended
to only in the per-sample `try`'s success path. -/
def test_batch_predictions (invoke : Nat → Except String α) (numSamples : Nat) :
    List (Nat × α) × List SMCall :=
  testBatchGo invoke 0 numSamples

/-- `test_endpoint_predictions(endpoint_name)`
(`scripts/test_endpoint_predictions.py`, lines 7-71): the same per-sample
loop over the five hard-coded `test_samples`; the function only prints and
returns `None`, so the model keeps the trace of `invoke_endpoint` calls. -/
def test_endpoint_predictions (invoke : Nat → Except String α) : List SMCall :=
  (testBatchGo invoke 0 5).2

/-- Control-plane state seen by `cleanup_failed_resources`: the existing
endpoints with their status, and the existing endpoint-config and model
names (configs and models have no status at this level). -/
structure SMState where
  endpoints : List (String × EpStatus)
  configs : List String
  models : List String
  deriving DecidableEq

/-- `describe_endpoint` against the state: the status of the first entry
with the given name, or `none` (a "does not exist" `ClientError`). -/
def epLookup (l : List (String × EpStatus)) (n : String) : Option EpStatus :=
  match l with
  | [] => none
  | (m, s) :: t => if m = n then some s else epLookup t n

/-- `delete_endpoint` against the state: remove every entry with the given
name. -/
def epRemove (l : List (String × EpStatus)) (n : String) :
    List (String × EpStatus) :=
  l.filter (fun p => decide (p.1 ≠ n))

/-- What `cleanup_failed_resources` prints for one candidate: a deletion,
an "already absent" success, a still-`Creating` skip, an informational skip
for any other status, or a caught deletion error. -/
inductive CleanupEvent where
  | deleted (n : String)
  | alreadyAbsent (n : String)
  | skippedCreating (n : String)
  | skippedOther (n : String)
  | deleteFailed (n : String)
  deriving DecidableEq

/-- Events that correspond to an actual deletion call that succeeded. -/
def CleanupEvent.isDeletion : CleanupEvent → Bool
  | .deleted _ => true
  | _ => false

/-- One iteration of the endpoint loop of `cleanup_failed_resources`
(`scripts/cleanup_failed_resources.py`, lines 29-49): `describe_endpoint`;
a "does not exist" error is caught and reported as success; if the status
is in `['Failed', 'OutOfService']` the endpoint is deleted; `Creating` and
every other status are only reported.  `deleteErrs n = true` models the
`delete_endpoint` call for `n` raising a (non-"does not exist")
`ClientError`, which the surrounding `except` catches. -/
def cleanupEndpointStep (deleteErrs : String → Bool) (st : SMState) (n : String) :
    SMState × CleanupEvent :=
  match epLookup st.endpoints n with
  | none => (st, .alreadyAbsent n)
  | some s =>
    if s = .Failed ∨ s = .OutOfService then
      if deleteErrs n then (st, .deleteFailed n)
      else ({ st with endpoints := epRemove st.endpoints n }, .deleted n)
    else if s = .Creating then (st, .skippedCreating n)
    else (st, .skippedOther n)

/-- One iteration of the endpoint-config loop (lines 52-61):
`delete_endpoint_config` unconditionally, with no status query; "does not
exist" is caught and reported as success, any other deletion error is
caught and reported, and the loop continues. -/
def cleanupConfigStep (deleteErrs : String → Bool) (st : SMState) (n : String) :
    SMState × CleanupEvent :=
  if n ∈ st.configs then
    if deleteErrs n then (st, .deleteFailed n)
    else ({ st with configs := st.configs.filter (fun m => decide (m ≠ n)) }, .deleted n)
  else (st, .alreadyAbsent n)

/-- One iteration of the model loop (lines 64-73): `delete_model`
unconditionally, with no status query; same error handling as the config
loop. -/
def cleanupModelStep (deleteErrs : String → Bool) (st : SMState) (n : String) :
    SMState × CleanupEvent :=
  if n ∈ st.models then
    if deleteErrs n then (st, .deleteFailed n)
    else ({ st with models := st.models.filter (fun m => decide (m ≠ n)) }, .deleted n)
  else (st, .alreadyAbsent n)

/-- A `for name in candidates:` loop whose body is `step`, threading the
control-plane state and collecting one event per candidate.  No exception
escapes a body iteration, so the loop never short-circuits. -/
def sweepList (step : SMState → String → SMState × CleanupEvent) :
    SMState → List String → SMState × List CleanupEvent
  | st, [] => (st, [])
  | st, n :: t =>
    let r := step st n
    let rest := sweepList step r.1 t
    (rest.1, r.2 :: rest.2)

/-- `cleanup_failed_resources()` (`scripts/cleanup_failed_resources.py`,
lines 5-81): sweep the endpoint candidates, then the endpoint-config
candidates, then the model candidates.  The source hard-codes one
candidate name per list; the candidate lists are parameters here. -/
def cleanup_failed_resources (deleteErrs : String → Bool) (st : SMState)
    (failedEndpoints failedConfigs failedModels : List String) :
    SMState × List CleanupEvent :=
  let r1 := sweepList (cleanupEndpointStep deleteErrs) st failedEndpoints
  let r2 := sweepList (cleanupConfigStep deleteErrs) r1.1 failedConfigs
  let r3 := sweepList (cleanupModelStep deleteErrs) r2.1 failedModels
  (r3.1, r1.2 ++ r2.2 ++ r3.2)

/-- The deterministic control plane: no deletion call raises an error other
than "does not exist". -/
def noDeleteErrs : String → Bool := fun _ => false

/-- A local time truncated to second resolution, as consumed by
`datetime.now().strftime('%Y%m%d-%H%M%S')`. -/
structure DateTimeSec where
  year : Nat
  month : Nat
  day : Nat
  hour : Nat
  minute : Nat
  second : Nat
  deriving DecidableEq

/-- Field ranges of a Python `datetime` value (year at most 9999). -/
def DateTimeSec.valid (t : DateTimeSec) : Prop :=
  t.year < 10000 ∧ 1 ≤ t.month ∧ t.month ≤ 12 ∧ 1 ≤ t.day ∧ t.day ≤ 31 ∧
    t.hour < 24 ∧ t.minute < 60 ∧ t.second < 60

instance (t : DateTimeSec) : Decidable t.valid := by
  unfold DateTimeSec.valid
  infer_instance

/-- The decimal digits of `n`, zero-padded on the left to width `w`
(the low `w` digits when `n` has more). -/
def padDigitsN : Nat → Nat → List Nat
  | 0, _ => []
  | w + 1, n => padDigitsN w (n / 10) ++ [n % 10]

/-- A decimal digit as its ASCII character. -/
def digitChar (d : Nat) : Char := Char.ofNat (48 + d)

/-- `strftime('%Y%m%d-%H%M%S')`: four zero-padded year digits, two digits
for each other field, with a hyphen between the date and the time. -/
def strftimeCompact (t : DateTimeSec) : String :=
  String.mk ((padDigitsN 4 t.year).map digitChar ++
    (padDigitsN 2 t.month).map digitChar ++
    (padDigitsN 2 t.day).map digitChar ++
    '-' :: ((padDigitsN 2 t.hour).map digitChar ++
      (padDigitsN 2 t.minute).map digitChar ++
      (padDigitsN 2 t.second).map digitChar))

/-- The f-string naming pattern shared by the scripts:
`f'{pfx}-{datetime.now().strftime('%Y%m%d-%H%M%S')}'`. -/
def resourceName (pfx : String) (t : DateTimeSec) : String :=
  pfx ++ "-" ++ strftimeCompact t

/-- The training-job name of `start_training_job.py` (lines 12-13). -/
def trainingJobName (t : DateTimeSec) : String :=
  resourceName "sensor-prediction-training" t

/-- The model, endpoint-config and endpoint names of
`scripts/deploy_model.py` (lines 9-11). -/
def deployModelNames (t : DateTimeSec) : String × String × String :=
  (resourceName "sensor-prediction-model" t,
    resourceName "sensor-prediction-config" t,
    resourceName "sensor-prediction-endpoint" t)

/-- Status of a SageMaker training job as listed by `list_training_jobs`. -/
inductive TrainStatus where
  | Completed
  | InProgress
  | Failed
  | Stopped
  deriving DecidableEq

/-- Control-plane state read by `run_full_ml_pipeline`
(`scripts/run_full_pipeline.py`): the `KeyCount` of the `training/` prefix
listing, the training jobs and endpoints in the creation-time-descending
order the list calls return them, and the outcome of the
`invoke_endpoint` test call. -/
structure PipelineEnv where
  trainingKeyCount : Nat
  trainingJobs : List (String × TrainStatus)
  endpoints : List (String × EpStatus)
  invokeResult : Except String String

/-- Step 2 of `run_full_ml_pipeline` (lines 40-61): among the three most
recent matching training jobs, the first with status `Completed`. -/
def latestSuccessfulJob (env : PipelineEnv) : Option (String × TrainStatus) :=
  (env.trainingJobs.take 3).find? (fun j => decide (j.2 = TrainStatus.Completed))

/-- Step 3 of `run_full_ml_pipeline` (lines 63-84): the single most recent
matching endpoint, accepted only when its status is `InService`. -/
def activeEndpoint (env : PipelineEnv) : Option String :=
  match env.endpoints.head? with
  | some (n, .InService) => some n
  | _ => none

/-- `run_full_ml_pipeline()` (`scripts/run_full_pipeline.py`, lines 8-117):
list the training data (fail when `KeyCount` is 0), look for a recent
`Completed` training job to reuse (fail when none), look for an `InService`
endpoint to reuse (fail when none), then invoke the endpoint once with the
sample row.  Every exception inside the function's `try` — including an
`invoke_endpoint` failure — is caught and turned into `return False`.  The
second component is the trace of control-plane calls issued. -/
def run_full_ml_pipeline (env : PipelineEnv) : Bool × List SMCall :=
  if env.trainingKeyCount = 0 then (false, [.listObjects])
  else
    match latestSuccessfulJob env with
    | none => (false, [.listObjects, .listTrainingJobs])
    | some _ =>
      match activeEndpoint env with
      | none => (false, [.listObjects, .listTrainingJobs, .listEndpoints])
      | some _ =>
        match env.invokeResult with
        | .ok _ =>
          (true, [.listObjects, .listTrainingJobs, .listEndpoints, .invokeEndpoint])
        | .error _ =>
          (false, [.listObjects, .listTrainingJobs, .listEndpoints, .invokeEndpoint])

/-- The process exit status of `python run_full_pipeline.py`: the
`__main__` block (lines 147-151) calls `run_full_ml_pipeline()` and
discards its boolean result, and no exception escapes the function, so the
interpreter always exits with status 0. -/
def run_full_pipeline_exit_code (env : PipelineEnv) : Nat :=
  (fun _r => 0) (run_full_ml_pipeline env)

/-- `run_command(command)` of `deploy.py` (lines 14-33): on subprocess
success return its stdout; on `CalledProcessError` print the error and
`sys.exit(1)`, modelled as `Except.error 1` (the process exit status). -/
def run_command (r : Except String String) : Except Nat String :=
  match r with
  | .ok out => .ok out
  | .error _ => .error 1

/-- Endpoint-status sequence reaching `InService` at the third poll. -/
def seqCreatingThenInService : Nat → EpStatus :=
  fun n => if n < 2 then .Creating else .InService

/-- Endpoint-status sequence that never leaves `Creating`. -/
def seqAlwaysCreating : Nat → EpStatus := fun _ => .Creating

/-- Deploy environment of the timeout scenario: all three creation calls
succeed and the endpoint never leaves `Creating`. -/
def deployEnvCreatingForever : DeployEnv :=
  { createModelOk := true, createConfigOk := true, createEndpointOk := true,
    endpointStatus := seqAlwaysCreating }

/-- Deploy environment where everything succeeds at once. -/
def deployEnvAllOk : DeployEnv :=
  { createModelOk := true, createConfigOk := true, createEndpointOk := true,
    endpointStatus := fun _ => .InService }

/-- Invocation outcomes where sample 1 (the second of three) fails. -/
def invokeSecondFails : Nat → Except String Nat :=
  fun i => if i = 1 then .error "boom" else .ok (10 * i)

/-- Cleanup state holding one `OutOfService` endpoint. -/
def stateOutOfService : SMState :=
  { endpoints := [("sensor-prediction-endpoint-20250805-124642", EpStatus.OutOfService)],
    configs := [], models := [] }

/-- Fetch sequence whose very first `describe_endpoint` raises the
transient "does not exist" error and which would report `InService` from
the second poll on. -/
def fetchNotFoundFirst : Nat → Except FetchErr EpStatus :=
  fun n => if n = 0 then .error .notFound else .ok .InService

/-- Fetch sequence that raises a non-"not found" error at the third poll. -/
def fetchOtherErrThird : Nat → Except FetchErr EpStatus :=
  fun n => if n < 2 then .ok .Creating else .error .other

/-- A sample timestamp. -/
def sampleTime1 : DateTimeSec :=
  { year := 2025, month := 8, day := 5, hour := 12, minute := 46, second := 42 }

/-- One second after `sampleTime1`. -/
def sampleTime2 : DateTimeSec :=
  { year := 2025, month := 8, day := 5, hour := 12, minute := 46, second := 43 }

/-- Pipeline state with no objects under the `training/` prefix. -/
def envNoTrainingData : PipelineEnv :=
  { trainingKeyCount := 0, trainingJobs := [], endpoints := [],
    invokeResult := .ok "24.9" }

/-- Pipeline state where data exists but none of the three most recent
training jobs is `Completed`, although an `InService` endpoint exists. -/
def envNoCompletedJob : PipelineEnv :=
  { trainingKeyCount := 5,
    trainingJobs := [("sensor-prediction-training-a", .InProgress)],
    endpoints := [("sensor-prediction-endpoint-a", .InService)],
    invokeResult := .ok "24.9" }

/-- Pipeline state where every reuse check passes and the invocation
succeeds. -/
def envPipelineOk : PipelineEnv :=
  { trainingKeyCount := 5,
    trainingJobs := [("sensor-prediction-training-a", .Completed)],
    endpoints := [("sensor-prediction-endpoint-a", .InService)],
    invokeResult := .ok "24.9" }

theorem isTerminalStatus_eq_false {s : EpStatus} :
    isTerminalStatus s = false ↔ s ≠ .InService ∧ s ≠ .Failed := by
  cases s <;> simp [isTerminalStatus]

theorem monitorGo_attempts_le (fetch : Nat → Except FetchErr EpStatus)
    (maxWaitSeconds : Nat) :
    ∀ fuel k, maxWaitSeconds / 30 + 1 - k < fuel →
      (monitorGo fetch maxWaitSeconds k).2 ≤ fuel := by
  intro fuel
  induction fuel with
  | zero => intro k h; omega
  | succ f ih =>
    intro k h
    rw [monitorGo]
    cases hf : fetch k with
    | error e => simp
    | ok s =>
      simp only
      split
      · simp
      · split
        · simp
        · split
          · simp
          · simp only
            have hrec := ih (k + 1) (by omega)
            omega

theorem monitorGo_timedOut (st : Nat → EpStatus) (maxWaitSeconds : Nat) :
    ∀ fuel k, maxWaitSeconds / 30 + 1 - k < fuel → k ≤ maxWaitSeconds / 30 + 1 →
      (∀ j, k ≤ j → j ≤ maxWaitSeconds / 30 + 1 → isTerminalStatus (st j) = false) →
      monitorGo (fun n => Except.ok (st n)) maxWaitSeconds k =
        (.timedOut, maxWaitSeconds / 30 + 2 - k) := by
  intro fuel
  induction fuel with
  | zero => intro k h; omega
  | succ f ih =>
    intro k h hk hnt
    have hks := hnt k le_rfl hk
    rw [isTerminalStatus_eq_false] at hks
    rw [monitorGo]
    simp only [hks.1, hks.2, if_false]
    by_cases htime : maxWaitSeconds < 30 * k
    · have : k = maxWaitSeconds / 30 + 1 := by omega
      simp only [htime, if_true]
      rw [this]
      simp
    · have hklt : k < maxWaitSeconds / 30 + 1 := by omega
      simp only [htime, if_false]
      rw [ih (k + 1) (by omega) (by omega) (fun j hj hj' => hnt j (by omega) hj')]
      have harith : maxWaitSeconds / 30 + 2 - (k + 1) + 1 = maxWaitSeconds / 30 + 2 - k := by
        omega
      show (MonitorResult.timedOut, maxWaitSeconds / 30 + 2 - (k + 1) + 1) =
        (MonitorResult.timedOut, maxWaitSeconds / 30 + 2 - k)
      rw [harith]

theorem monitorGo_terminal (st : Nat → EpStatus) (maxWaitSeconds : Nat) :
    ∀ fuel k m, m - k < fuel → k ≤ m → m ≤ maxWaitSeconds / 30 + 1 →
      (∀ j, k ≤ j → j < m → isTerminalStatus (st j) = false) →
      isTerminalStatus (st m) = true →
      monitorGo (fun n => Except.ok (st n)) maxWaitSeconds k =
        (terminalResult (st m), m + 1 - k) := by
  intro fuel
  induction fuel with
  | zero => intro k m h; omega
  | succ f ih =>
    intro k m h hk hm hnt hterm
    rw [monitorGo]
    by_cases hkm : k = m
    · subst hkm
      have hk1 : k + 1 - k = 1 := by omega
      cases hs : st k <;>
        simp [isTerminalStatus, hs, terminalResult, hk1] at hterm ⊢
    · have hks := hnt k le_rfl (by omega)
      rw [isTerminalStatus_eq_false] at hks
      simp only [hks.1, hks.2, if_false]
      have htime : ¬ maxWaitSeconds < 30 * k := by omega
      simp only [htime, if_false]
      rw [ih (k + 1) m (by omega) (by omega) hm (fun j hj hj' => hnt j (by omega) hj') hterm]
      have harith : m + 1 - (k + 1) + 1 = m + 1 - k := by omega
      show (terminalResult (st m), m + 1 - (k + 1) + 1) = (terminalResult (st m), m + 1 - k)
      rw [harith]

theorem monitorGo_fetchError (fetch : Nat → Except FetchErr EpStatus)
    (maxWaitSeconds : Nat) :
    ∀ fuel k m (e : FetchErr), m - k < fuel → k ≤ m → m ≤ maxWaitSeconds / 30 + 1 →
      (∀ j, k ≤ j → j < m →
        ∃ s, fetch j = Except.ok s ∧ isTerminalStatus s = false) →
      fetch m = Except.error e →
      monitorGo fetch maxWaitSeconds k = (.fetchError e, m + 1 - k) := by
  intro fuel
  induction fuel with
  | zero => intro k m e h; omega
  | succ f ih =>
    intro k m e h hk hm hok herr
    rw [monitorGo]
    by_cases hkm : k = m
    · subst hkm
      have hk1 : k + 1 - k = 1 := by omega
      rw [herr, hk1]
    · obtain ⟨s, hfk, hsnt⟩ := hok k le_rfl (by omega)
      rw [isTerminalStatus_eq_false] at hsnt
      rw [hfk]
      simp only [hsnt.1, hsnt.2, if_false]
      have htime : ¬ maxWaitSeconds < 30 * k := by omega
      simp only [htime, if_false]
      rw [ih (k + 1) m e (by omega) (by omega) hm (fun j hj hj' => hok j (by omega) hj') herr]
      have harith : m + 1 - (k + 1) + 1 = m + 1 - k := by omega
      show (MonitorResult.fetchError e, m + 1 - (k + 1) + 1) =
        (MonitorResult.fetchError e, m + 1 - k)
      rw [harith]

theorem glueLoop_const_running :
    ∀ fuel k, glueLoop (fun _ => GlueStatus.running) k fuel = none := by
  intro fuel
  induction fuel with
  | zero => intro k; rfl
  | succ f ih => intro k; simpa [glueLoop] using ih (k + 1)

theorem glueLoop_unbounded :
    ¬ ∃ B : Nat, ∀ status : Nat → GlueStatus, (glueLoop status 0 B).isSome = true := by
  rintro ⟨B, hB⟩
  have h := hB (fun _ => GlueStatus.running)
  rw [glueLoop_const_running] at h
  simp at h

/-- C1 (amended): the endpoint monitor `monitor_endpoint_deployment` is a
bounded poll — started with wall-clock ceiling `maxWaitSeconds`, it returns
the terminal branch for the first terminal status when one occurs within
`maxWaitSeconds / 30 + 1` polls of the start, returns the timed-out branch
otherwise, and never performs more than `maxWaitSeconds / 30 + 2` fetches;
but the claim's universal statement is false for the repository: the Glue
workflow polling loop of `run_glue_workflow` (`deploy.py`) has no attempt
or wall-clock ceiling, so no poll bound works for every status sequence. -/
theorem c1_poll_characterization :
    ∀ (st : Nat → EpStatus) (maxWaitSeconds : Nat),
      (∀ m, m ≤ maxWaitSeconds / 30 + 1 → isTerminalStatus (st m) = true →
        (∀ j, j < m → isTerminalStatus (st j) = false) →
        monitorGo (fun n => Except.ok (st n)) maxWaitSeconds 0 =
          (terminalResult (st m), m + 1)) ∧
      ((∀ j, j ≤ maxWaitSeconds / 30 + 1 → isTerminalStatus (st j) = false) →
        monitorGo (fun n => Except.ok (st n)) maxWaitSeconds 0 =
          (.timedOut, maxWaitSeconds / 30 + 2)) ∧
      (monitorGo (fun n => Except.ok (st n)) maxWaitSeconds 0).2 ≤
        maxWaitSeconds / 30 + 2 ∧
      ¬ ∃ B : Nat, ∀ status : Nat → GlueStatus,
        (glueLoop status 0 B).isSome = true := by
  intro st maxWaitSeconds
  refine ⟨?_, ?_, ?_, glueLoop_unbounded⟩
  · intro m hm hterm hfirst
    have h := monitorGo_terminal st maxWaitSeconds (m + 1) 0 m (by omega) (by omega) hm
      (fun j _ hj' => hfirst j hj') hterm
    simpa using h
  · intro hnt
    have h := monitorGo_timedOut st maxWaitSeconds (maxWaitSeconds / 30 + 2) 0
      (by omega) (by omega) (fun j _ hj' => hnt j hj')
    simpa using h
  · exact monitorGo_attempts_le _ maxWaitSeconds (maxWaitSeconds / 30 + 2) 0 (by omega)

theorem c1_poll_characterization_witness :
    monitorGo (fun n => Except.ok (seqCreatingThenInService n)) 900 0 =
      (MonitorResult.inService, 3) ∧
    monitorGo (fun n => Except.ok (seqAlwaysCreating n)) 60 0 =
      (MonitorResult.timedOut, 4) := by
  constructor
  · have h := (c1_poll_characterization seqCreatingThenInService 900).1 2 (by norm_num)
      (by decide) (fun j hj => by interval_cases j <;> decide)
    exact h.trans (by decide)
  · have h := (c1_poll_characterization seqAlwaysCreating 60).2.1 (fun j _ => rfl)
    exact h.trans (by decide)

/-- C1 counterexample: the claim "no polling loop runs unboundedly — every
polling loop has either an attempt ceiling or a wall-clock ceiling" is
false for `run_glue_workflow` (`deploy.py`, lines 136-149): no number of
polls bounds the loop for every status sequence, because on the constant
`RUNNING` sequence the loop is still running after any number of polls. -/
theorem c1_counterexample :
    ¬ ∃ B : Nat, ∀ status : Nat → GlueStatus,
      (glueLoop status 0 B).isSome = true :=
  glueLoop_unbounded

/-- C2 counterexample: for the endpoint-status sequence that stays
`Creating` under the 20-attempt waiter ceiling, running
`scripts/deploy_model.py` does not produce a distinct non-fatal timed-out
outcome: the waiter's timeout error is re-raised, so the script run fails. -/
theorem c2_counterexample :
    deploy_model_script_outcome deployEnvCreatingForever = RunOutcome.Failed ∧
    RunOutcome.Failed ≠ RunOutcome.TimedOut := by
  decide

/-- C2 (amended): under the always-`Creating` endpoint sequence with the
30s/20-attempt waiter, the waiter gives up after exactly 20 polls with a
max-attempts `WaiterError`; `deploy_model` of `scripts/deploy_model.py`
catches and re-raises it, so the script's run outcome is `Failed` — the
polling timeout is conflated with failure, not reported as a distinct
`TimedOut` outcome. -/
theorem c2_waiter_timeout_is_failure :
    waiterWait seqAlwaysCreating 20 = (WaiterOutcome.maxAttemptsExceeded, 20) ∧
    (deploy_model deployEnvCreatingForever).1 = DeployResult.raisedWaiterTimeout ∧
    deploy_model_script_outcome deployEnvCreatingForever = RunOutcome.Failed := by
  decide

/-- C3: in every execution of `deploy_model` (both
`scripts/deploy_model.py` and `scripts/deploy_model_github.py`), the
`create_endpoint` call is issued only when both the preceding
`create_model` call and the preceding `create_endpoint_config` call
succeeded, and in that case the trace of control-plane calls begins with
`create_model`, then `create_endpoint_config`, then `create_endpoint`, in
that order. -/
theorem c3_deploy_creation_order :
    ∀ env : DeployEnv,
      (SMCall.createEndpoint ∈ (deploy_model env).2 →
        env.createModelOk = true ∧ env.createConfigOk = true ∧
        (deploy_model env).2.take 3 =
          [SMCall.createModel, SMCall.createEndpointConfig, SMCall.createEndpoint]) ∧
      (SMCall.createEndpoint ∈ (deploy_model_github env).2 →
        env.createModelOk = true ∧ env.createConfigOk = true ∧
        (deploy_model_github env).2.take 3 =
          [SMCall.createModel, SMCall.createEndpointConfig, SMCall.createEndpoint]) := by
  rintro ⟨m, c, e, st⟩
  constructor
  · intro hmem
    cases m
    · simp [deploy_model] at hmem
    · cases c
      · simp [deploy_model] at hmem
      · refine ⟨rfl, rfl, ?_⟩
        cases e
        · simp [deploy_model]
        · simp [deploy_model]
          split <;> simp
  · intro hmem
    cases m
    · simp [deploy_model_github] at hmem
    · cases c
      · simp [deploy_model_github] at hmem
      · refine ⟨rfl, rfl, ?_⟩
        cases e
        · simp [deploy_model_github]
        · simp [deploy_model_github]
          split <;> simp

theorem c3_deploy_creation_order_witness :
    deployEnvAllOk.createModelOk = true ∧ deployEnvAllOk.createConfigOk = true ∧
    (deploy_model deployEnvAllOk).2.take 3 =
      [SMCall.createModel, SMCall.createEndpointConfig, SMCall.createEndpoint] :=
  (c3_deploy_creation_order deployEnvAllOk).1 (by decide)

theorem testBatchGo_trace_length (invoke : Nat → Except String α) :
    ∀ remaining i, (testBatchGo invoke i remaining).2.length = remaining := by
  intro remaining
  induction remaining with
  | zero => intro i; rfl
  | succ r ih =>
    intro i
    cases h : invoke i <;> simp [testBatchGo, h, ih]

theorem testBatchGo_map_fst (invoke : Nat → Except String α) :
    ∀ remaining i, (testBatchGo invoke i remaining).1.map Prod.fst =
      ((List.range' i remaining).filter (fun j => (invoke j).isOk)).map (fun j => j + 1) := by
  intro remaining
  induction remaining with
  | zero => intro i; rfl
  | succ r ih =>
    intro i
    cases h : invoke i <;>
      simp [testBatchGo, h, List.range'_succ, List.filter_cons, Except.isOk, Except.toBool,
        ih]

/-- C4 (amended): for every sequence of sample inputs, the
invocation-test loops invoke the endpoint exactly once per sample even when
some invocations fail (a per-sample failure is caught and does not abort
the remaining samples), but the returned `predictions` list of
`test_batch_predictions` holds one entry per successful invocation only, in
input order — failed samples contribute no entry, so its length is the
number of successes, not always `len(sampleInputs)`; the per-sample loop of
`test_endpoint_predictions` likewise always performs its five invocations. -/
theorem c4_invocation_results :
    ∀ (α : Type) (invoke : Nat → Except String α) (numSamples : Nat),
      (test_batch_predictions invoke numSamples).2.length = numSamples ∧
      (test_batch_predictions invoke numSamples).1.map Prod.fst =
        ((List.range numSamples).filter (fun j => (invoke j).isOk)).map (fun j => j + 1) ∧
      (test_batch_predictions invoke numSamples).1.length =
        ((List.range numSamples).filter (fun j => (invoke j).isOk)).length ∧
      (test_endpoint_predictions invoke).length = 5 := by
  intro α invoke numSamples
  have hmap : (test_batch_predictions invoke numSamples).1.map Prod.fst =
      ((List.range numSamples).filter (fun j => (invoke j).isOk)).map (fun j => j + 1) := by
    rw [List.range_eq_range']
    exact testBatchGo_map_fst invoke numSamples 0
  refine ⟨testBatchGo_trace_length invoke numSamples 0, hmap, ?_,
    testBatchGo_trace_length invoke 5 0⟩
  have h1 := congrArg List.length hmap
  simpa using h1

/-- C4 counterexample: with three samples whose second invocation fails,
`test_batch_predictions` continues past the failure but returns only 2
entries — not `len(sampleInputs) = 3` result-or-error entries as claimed
(the error is printed, never appended to the returned list). -/
theorem c4_counterexample :
    (test_batch_predictions invokeSecondFails 3).1.length = 2 ∧
    (test_batch_predictions invokeSecondFails 3).2.length = 3 ∧ (2 : Nat) ≠ 3 := by
  decide

/-- C7 counterexample: a transient "does not exist" error on the very
first `describe_endpoint` call of `monitor_endpoint_deployment` is not
retried: the `except` block ends monitoring immediately after 1 fetch with
a failure return, instead of continuing to the `InService` status the
sequence reports from the second poll on. -/
theorem c7_counterexample :
    monitor_endpoint_deployment fetchNotFoundFirst 15 =
      (MonitorResult.fetchError FetchErr.notFound, 1) ∧
    MonitorResult.fetchError FetchErr.notFound ≠ MonitorResult.inService := by
  constructor
  · have h := monitorGo_fetchError fetchNotFoundFirst (15 * 60) 1 0 0 .notFound
      (by omega) (by omega) (by omega)
      (fun j hj hj' => absurd hj' (by omega)) rfl
    simpa [monitor_endpoint_deployment] using h
  · decide

/-- C7 (amended): in the polling loop of `monitor_endpoint_deployment`,
every `describe_endpoint` error — including the transient "does not exist"
error raised just after resource creation — is caught by the `except`
block and terminates the monitoring immediately with a failure return
after that single failing fetch; no fetch error is retried at all. -/
theorem c7_fetch_error_not_retried :
    ∀ (fetch : Nat → Except FetchErr EpStatus) (maxWaitMinutes m : Nat) (e : FetchErr),
      m ≤ maxWaitMinutes * 60 / 30 + 1 →
      (∀ j, j < m → ∃ s, fetch j = Except.ok s ∧ isTerminalStatus s = false) →
      fetch m = Except.error e →
      monitor_endpoint_deployment fetch maxWaitMinutes =
        (MonitorResult.fetchError e, m + 1) := by
  intro fetch maxWaitMinutes m e hm hok herr
  have h := monitorGo_fetchError fetch (maxWaitMinutes * 60) (m + 1) 0 m e
    (by omega) (by omega) hm (fun j _ hj' => hok j hj') herr
  simpa [monitor_endpoint_deployment] using h

theorem c7_fetch_error_not_retried_witness :
    monitor_endpoint_deployment fetchOtherErrThird 15 =
      (MonitorResult.fetchError FetchErr.other, 3) :=
  c7_fetch_error_not_retried fetchOtherErrThird 15 2 .other (by norm_num)
    (fun j hj => ⟨.Creating, by interval_cases j <;> exact ⟨rfl, rfl⟩⟩)
    rfl

theorem epRemove_cons (a : String) (s : EpStatus) (t : List (String × EpStatus))
    (n : String) :
    epRemove ((a, s) :: t) n =
      if a = n then epRemove t n else (a, s) :: epRemove t n := by
  by_cases h : a = n <;> simp [epRemove, h]

theorem epLookup_epRemove (l : List (String × EpStatus)) (n m : String) :
    epLookup (epRemove l n) m = if m = n then none else epLookup l m := by
  induction l with
  | nil => simp [epRemove, epLookup]
  | cons p t ih =>
    obtain ⟨a, s⟩ := p
    rw [epRemove_cons]
    by_cases han : a = n
    · subst han
      rw [if_pos rfl, ih]
      by_cases hma : m = a
      · subst hma; simp [epLookup]
      · have ham : ¬ a = m := fun h => hma h.symm
        simp [epLookup, hma, ham]
    · rw [if_neg han]
      by_cases ham : a = m
      · subst ham
        simp [epLookup, han]
      · simp [epLookup, ham, ih]

theorem sweepList_events_length (step : SMState → String → SMState × CleanupEvent) :
    ∀ (l : List String) (st : SMState), (sweepList step st l).2.length = l.length := by
  intro l
  induction l with
  | nil => intro st; rfl
  | cons n t ih => intro st; simp [sweepList, ih]

theorem cleanupEndpointStep_endpoints_cases (deleteErrs : String → Bool)
    (st : SMState) (n : String) :
    (cleanupEndpointStep deleteErrs st n).1.endpoints = st.endpoints ∨
    (cleanupEndpointStep deleteErrs st n).1.endpoints = epRemove st.endpoints n := by
  unfold cleanupEndpointStep
  rcases epLookup st.endpoints n with _ | s
  · exact Or.inl rfl
  · dsimp only
    split_ifs <;> simp

theorem cleanupEndpointStep_frame (deleteErrs : String → Bool) (st : SMState)
    (n : String) :
    (cleanupEndpointStep deleteErrs st n).1.configs = st.configs ∧
    (cleanupEndpointStep deleteErrs st n).1.models = st.models := by
  unfold cleanupEndpointStep
  rcases epLookup st.endpoints n with _ | s
  · exact ⟨rfl, rfl⟩
  · dsimp only
    split_ifs <;> exact ⟨rfl, rfl⟩

theorem cleanupConfigStep_configs_cases (deleteErrs : String → Bool)
    (st : SMState) (n : String) :
    (cleanupConfigStep deleteErrs st n).1.configs = st.configs ∨
    (cleanupConfigStep deleteErrs st n).1.configs =
      st.configs.filter (fun m => decide (m ≠ n)) := by
  unfold cleanupConfigStep
  split_ifs <;> simp

theorem cleanupConfigStep_frame (deleteErrs : String → Bool) (st : SMState)
    (n : String) :
    (cleanupConfigStep deleteErrs st n).1.endpoints = st.endpoints ∧
    (cleanupConfigStep deleteErrs st n).1.models = st.models := by
  unfold cleanupConfigStep
  split_ifs <;> exact ⟨rfl, rfl⟩

theorem cleanupModelStep_models_cases (deleteErrs : String → Bool)
    (st : SMState) (n : String) :
    (cleanupModelStep deleteErrs st n).1.models = st.models ∨
    (cleanupModelStep deleteErrs st n).1.models =
      st.models.filter (fun m => decide (m ≠ n)) := by
  unfold cleanupModelStep
  split_ifs <;> simp

theorem cleanupModelStep_frame (deleteErrs : String → Bool) (st : SMState)
    (n : String) :
    (cleanupModelStep deleteErrs st n).1.endpoints = st.endpoints ∧
    (cleanupModelStep deleteErrs st n).1.configs = st.configs := by
  unfold cleanupModelStep
  split_ifs <;> exact ⟨rfl, rfl⟩

theorem sweepList_ep_frame (deleteErrs : String → Bool) :
    ∀ (l : List String) (st : SMState),
      (sweepList (cleanupEndpointStep deleteErrs) st l).1.configs = st.configs ∧
      (sweepList (cleanupEndpointStep deleteErrs) st l).1.models = st.models := by
  intro l
  induction l with
  | nil => intro st; exact ⟨rfl, rfl⟩
  | cons n t ih =>
    intro st
    have hstep := cleanupEndpointStep_frame deleteErrs st n
    have hrest := ih (cleanupEndpointStep deleteErrs st n).1
    simp only [sweepList]
    exact ⟨hrest.1.trans hstep.1, hrest.2.trans hstep.2⟩

theorem sweepList_cfg_frame (deleteErrs : String → Bool) :
    ∀ (l : List String) (st : SMState),
      (sweepList (cleanupConfigStep deleteErrs) st l).1.endpoints = st.endpoints ∧
      (sweepList (cleanupConfigStep deleteErrs) st l).1.models = st.models := by
  intro l
  induction l with
  | nil => intro st; exact ⟨rfl, rfl⟩
  | cons n t ih =>
    intro st
    have hstep := cleanupConfigStep_frame deleteErrs st n
    have hrest := ih (cleanupConfigStep deleteErrs st n).1
    simp only [sweepList]
    exact ⟨hrest.1.trans hstep.1, hrest.2.trans hstep.2⟩

theorem sweepList_mdl_frame (deleteErrs : String → Bool) :
    ∀ (l : List String) (st : SMState),
      (sweepList (cleanupModelStep deleteErrs) st l).1.endpoints = st.endpoints ∧
      (sweepList (cleanupModelStep deleteErrs) st l).1.configs = st.configs := by
  intro l
  induction l with
  | nil => intro st; exact ⟨rfl, rfl⟩
  | cons n t ih =>
    intro st
    have hstep := cleanupModelStep_frame deleteErrs st n
    have hrest := ih (cleanupModelStep deleteErrs st n).1
    simp only [sweepList]
    exact ⟨hrest.1.trans hstep.1, hrest.2.trans hstep.2⟩

theorem cleanupEndpointStep_fixed (st : SMState) (n : String)
    (h : ∀ s, epLookup st.endpoints n = some s →
      s ≠ EpStatus.Failed ∧ s ≠ EpStatus.OutOfService) :
    (cleanupEndpointStep noDeleteErrs st n).1 = st ∧
    (cleanupEndpointStep noDeleteErrs st n).2.isDeletion = false := by
  unfold cleanupEndpointStep
  rcases hl : epLookup st.endpoints n with _ | s
  · exact ⟨rfl, rfl⟩
  · have hs := h s hl
    dsimp only
    rw [if_neg (by tauto)]
    split_ifs <;> exact ⟨rfl, rfl⟩

theorem cleanupEndpointStep_establishes (st : SMState) (n : String) :
    ∀ s, epLookup (cleanupEndpointStep noDeleteErrs st n).1.endpoints n = some s →
      s ≠ EpStatus.Failed ∧ s ≠ EpStatus.OutOfService := by
  unfold cleanupEndpointStep
  rcases hl : epLookup st.endpoints n with _ | s0
  · intro s hs
    dsimp only at hs
    rw [hl] at hs
    cases hs
  · dsimp only
    split_ifs with h1 h2
    · intro s hs
      simp [noDeleteErrs] at h2
    · intro s hs
      dsimp only at hs
      rw [epLookup_epRemove, if_pos rfl] at hs
      cases hs
    · intro s hs
      dsimp only at hs
      rw [hl] at hs
      cases hs
      constructor <;> rintro rfl <;> simp_all
    · intro s hs
      dsimp only at hs
      rw [hl] at hs
      cases hs
      constructor <;> rintro rfl <;> simp_all

theorem cleanupEndpointStep_preserves (st : SMState) (n m : String)
    (h : ∀ s, epLookup st.endpoints m = some s →
      s ≠ EpStatus.Failed ∧ s ≠ EpStatus.OutOfService) :
    ∀ s, epLookup (cleanupEndpointStep noDeleteErrs st n).1.endpoints m = some s →
      s ≠ EpStatus.Failed ∧ s ≠ EpStatus.OutOfService := by
  rcases cleanupEndpointStep_endpoints_cases noDeleteErrs st n with hc | hc <;> rw [hc]
  · exact h
  · intro s hs
    rw [epLookup_epRemove] at hs
    by_cases hmn : m = n
    · rw [if_pos hmn] at hs
      cases hs
    · rw [if_neg hmn] at hs
      exact h s hs

theorem sweepList_ep_preserves :
    ∀ (l : List String) (st : SMState) (m : String),
      (∀ s, epLookup st.endpoints m = some s →
        s ≠ EpStatus.Failed ∧ s ≠ EpStatus.OutOfService) →
      ∀ s, epLookup (sweepList (cleanupEndpointStep noDeleteErrs) st l).1.endpoints m =
          some s → s ≠ EpStatus.Failed ∧ s ≠ EpStatus.OutOfService := by
  intro l
  induction l with
  | nil => intro st m h; exact h
  | cons n t ih =>
    intro st m h
    simp only [sweepList]
    exact ih _ m (cleanupEndpointStep_preserves st n m h)

theorem sweepList_ep_establishes :
    ∀ (l : List String) (st : SMState) (n : String), n ∈ l →
      ∀ s, epLookup (sweepList (cleanupEndpointStep noDeleteErrs) st l).1.endpoints n =
          some s → s ≠ EpStatus.Failed ∧ s ≠ EpStatus.OutOfService := by
  intro l
  induction l with
  | nil => intro st n hn; cases hn
  | cons a t ih =>
    intro st n hn
    simp only [sweepList]
    rcases List.mem_cons.mp hn with rfl | hmem
    · exact sweepList_ep_preserves t _ n (cleanupEndpointStep_establishes st n)
    · exact ih _ n hmem

theorem sweepList_ep_fixed :
    ∀ (l : List String) (st : SMState),
      (∀ n ∈ l, ∀ s, epLookup st.endpoints n = some s →
        s ≠ EpStatus.Failed ∧ s ≠ EpStatus.OutOfService) →
      (sweepList (cleanupEndpointStep noDeleteErrs) st l).1 = st ∧
      ∀ ev ∈ (sweepList (cleanupEndpointStep noDeleteErrs) st l).2,
        ev.isDeletion = false := by
  intro l
  induction l with
  | nil => intro st h; exact ⟨rfl, by intro ev hev; cases hev⟩
  | cons n t ih =>
    intro st h
    have hstep := cleanupEndpointStep_fixed st n (h n (List.mem_cons_self n t))
    simp only [sweepList, hstep.1]
    have hrest := ih st (fun a ha => h a (List.mem_cons_of_mem n ha))
    refine ⟨hrest.1, ?_⟩
    intro ev hev
    rcases List.mem_cons.mp hev with rfl | hmem
    · exact hstep.2
    · exact hrest.2 ev hmem

theorem cleanupConfigStep_absent (st : SMState) (n : String) (h : n ∉ st.configs) :
    (cleanupConfigStep noDeleteErrs st n).1 = st ∧
    (cleanupConfigStep noDeleteErrs st n).2.isDeletion = false := by
  unfold cleanupConfigStep
  rw [if_neg h]
  exact ⟨rfl, rfl⟩

theorem cleanupConfigStep_establishes (st : SMState) (n : String) :
    n ∉ (cleanupConfigStep noDeleteErrs st n).1.configs := by
  unfold cleanupConfigStep
  split_ifs with h1 h2
  · simp [noDeleteErrs] at h2
  · simp
  · exact h1

theorem cleanupConfigStep_preserves_absent (deleteErrs : String → Bool)
    (st : SMState) (n m : String) (h : m ∉ st.configs) :
    m ∉ (cleanupConfigStep deleteErrs st n).1.configs := by
  rcases cleanupConfigStep_configs_cases deleteErrs st n with hc | hc <;> rw [hc]
  · exact h
  · intro hmem
    exact h (List.mem_filter.mp hmem).1

theorem sweepList_cfg_preserves_absent :
    ∀ (l : List String) (st : SMState) (m : String), m ∉ st.configs →
      m ∉ (sweepList (cleanupConfigStep noDeleteErrs) st l).1.configs := by
  intro l
  induction l with
  | nil => intro st m h; exact h
  | cons n t ih =>
    intro st m h
    simp only [sweepList]
    exact ih _ m (cleanupConfigStep_preserves_absent noDeleteErrs st n m h)

theorem sweepList_cfg_establishes :
    ∀ (l : List String) (st : SMState) (n : String), n ∈ l →
      n ∉ (sweepList (cleanupConfigStep noDeleteErrs) st l).1.configs := by
  intro l
  induction l with
  | nil => intro st n hn; cases hn
  | cons a t ih =>
    intro st n hn
    simp only [sweepList]
    rcases List.mem_cons.mp hn with rfl | hmem
    · exact sweepList_cfg_preserves_absent t _ n (cleanupConfigStep_establishes st n)
    · exact ih _ n hmem

theorem sweepList_cfg_fixed :
    ∀ (l : List String) (st : SMState), (∀ n ∈ l, n ∉ st.configs) →
      (sweepList (cleanupConfigStep noDeleteErrs) st l).1 = st ∧
      ∀ ev ∈ (sweepList (cleanupConfigStep noDeleteErrs) st l).2,
        ev.isDeletion = false := by
  intro l
  induction l with
  | nil => intro st h; exact ⟨rfl, by intro ev hev; cases hev⟩
  | cons n t ih =>
    intro st h
    have hstep := cleanupConfigStep_absent st n (h n (List.mem_cons_self n t))
    simp only [sweepList, hstep.1]
    have hrest := ih st (fun a ha => h a (List.mem_cons_of_mem n ha))
    refine ⟨hrest.1, ?_⟩
    intro ev hev
    rcases List.mem_cons.mp hev with rfl | hmem
    · exact hstep.2
    · exact hrest.2 ev hmem

theorem cleanupModelStep_absent (st : SMState) (n : String) (h : n ∉ st.models) :
    (cleanupModelStep noDeleteErrs st n).1 = st ∧
    (cleanupModelStep noDeleteErrs st n).2.isDeletion = false := by
  unfold cleanupModelStep
  rw [if_neg h]
  exact ⟨rfl, rfl⟩

theorem cleanupModelStep_establishes (st : SMState) (n : String) :
    n ∉ (cleanupModelStep noDeleteErrs st n).1.models := by
  unfold cleanupModelStep
  split_ifs with h1 h2
  · simp [noDeleteErrs] at h2
  · simp
  · exact h1

theorem cleanupModelStep_preserves_absent (deleteErrs : String → Bool)
    (st : SMState) (n m : String) (h : m ∉ st.models) :
    m ∉ (cleanupModelStep deleteErrs st n).1.models := by
  rcases cleanupModelStep_models_cases deleteErrs st n with hc | hc <;> rw [hc]
  · exact h
  · intro hmem
    exact h (List.mem_filter.mp hmem).1

theorem sweepList_mdl_preserves_absent :
    ∀ (l : List String) (st : SMState) (m : String), m ∉ st.models →
      m ∉ (sweepList (cleanupModelStep noDeleteErrs) st l).1.models := by
  intro l
  induction l with
  | nil => intro st m h; exact h
  | cons n t ih =>
    intro st m h
    simp only [sweepList]
    exact ih _ m (cleanupModelStep_preserves_absent noDeleteErrs st n m h)

theorem sweepList_mdl_establishes :
    ∀ (l : List String) (st : SMState) (n : String), n ∈ l →
      n ∉ (sweepList (cleanupModelStep noDeleteErrs) st l).1.models := by
  intro l
  induction l with
  | nil => intro st n hn; cases hn
  | cons a t ih =>
    intro st n hn
    simp only [sweepList]
    rcases List.mem_cons.mp hn with rfl | hmem
    · exact sweepList_mdl_preserves_absent t _ n (cleanupModelStep_establishes st n)
    · exact ih _ n hmem

theorem sweepList_mdl_fixed :
    ∀ (l : List String) (st : SMState), (∀ n ∈ l, n ∉ st.models) →
      (sweepList (cleanupModelStep noDeleteErrs) st l).1 = st ∧
      ∀ ev ∈ (sweepList (cleanupModelStep noDeleteErrs) st l).2,
        ev.isDeletion = false := by
  intro l
  induction l with
  | nil => intro st h; exact ⟨rfl, by intro ev hev; cases hev⟩
  | cons n t ih =>
    intro st h
    have hstep := cleanupModelStep_absent st n (h n (List.mem_cons_self n t))
    simp only [sweepList, hstep.1]
    have hrest := ih st (fun a ha => h a (List.mem_cons_of_mem n ha))
    refine ⟨hrest.1, ?_⟩
    intro ev hev
    rcases List.mem_cons.mp hev with rfl | hmem
    · exact hstep.2
    · exact hrest.2 ev hmem

theorem filter_isDeletion_nil (l : List CleanupEvent)
    (h : ∀ ev ∈ l, ev.isDeletion = false) :
    l.filter (fun ev => ev.isDeletion) = [] := by
  induction l with
  | nil => rfl
  | cons e t ih =>
    have he := h e (List.mem_cons_self e t)
    simp [List.filter_cons, he, ih (fun a ha => h a (List.mem_cons_of_mem e ha))]

theorem cleanup_second_run (st : SMState) (eps cfgs mdls : List String) :
    (cleanup_failed_resources noDeleteErrs
        (cleanup_failed_resources noDeleteErrs st eps cfgs mdls).1 eps cfgs mdls).1 =
      (cleanup_failed_resources noDeleteErrs st eps cfgs mdls).1 ∧
    (cleanup_failed_resources noDeleteErrs
        (cleanup_failed_resources noDeleteErrs st eps cfgs mdls).1 eps cfgs
        mdls).2.filter (fun ev => ev.isDeletion) = [] := by
  unfold cleanup_failed_resources
  dsimp only
  set A := sweepList (cleanupEndpointStep noDeleteErrs) st eps with hA
  set B := sweepList (cleanupConfigStep noDeleteErrs) A.1 cfgs with hB
  set C := sweepList (cleanupModelStep noDeleteErrs) B.1 mdls with hC
  have hend : C.1.endpoints = A.1.endpoints := by
    calc C.1.endpoints = B.1.endpoints := by
          rw [hC]; exact (sweepList_mdl_frame noDeleteErrs mdls B.1).1
      _ = A.1.endpoints := by
          rw [hB]; exact (sweepList_cfg_frame noDeleteErrs cfgs A.1).1
  have hcfg : C.1.configs = B.1.configs := by
    rw [hC]; exact (sweepList_mdl_frame noDeleteErrs mdls B.1).2
  have hepC : ∀ n ∈ eps, ∀ s, epLookup C.1.endpoints n = some s →
      s ≠ EpStatus.Failed ∧ s ≠ EpStatus.OutOfService := by
    intro n hn s hs
    rw [hend] at hs
    revert hs
    rw [hA]
    exact sweepList_ep_establishes eps st n hn s
  have hcfgC : ∀ n ∈ cfgs, n ∉ C.1.configs := by
    intro n hn
    rw [hcfg, hB]
    exact sweepList_cfg_establishes cfgs A.1 n hn
  have hmdlC : ∀ n ∈ mdls, n ∉ C.1.models := by
    intro n hn
    rw [hC]
    exact sweepList_mdl_establishes mdls B.1 n hn
  have h1 := sweepList_ep_fixed eps C.1 hepC
  rw [h1.1]
  have h2 := sweepList_cfg_fixed cfgs C.1 hcfgC
  rw [h2.1]
  have h3 := sweepList_mdl_fixed mdls C.1 hmdlC
  refine ⟨h3.1, ?_⟩
  rw [List.filter_append, List.filter_append, filter_isDeletion_nil _ h1.2,
    filter_isDeletion_nil _ h2.2, filter_isDeletion_nil _ h3.2]
  rfl

/-- C6: with the deterministic control-plane deletion semantics (a deletion
either removes the resource or reports "does not exist"), running
`cleanup_failed_resources` twice on the same candidate lists leaves the
control-plane state exactly as after one run, and the second run performs
no deletion at all — every candidate it touches is observed already absent
or in a non-deletable status and reported as such; moreover, even when
arbitrary deletion calls fail with caught errors, the sweep still processes
every candidate of all three lists (one event per candidate — no
short-circuit). -/
theorem c6_cleanup_idempotent_no_shortcircuit :
    (∀ (st : SMState) (eps cfgs mdls : List String),
      (cleanup_failed_resources noDeleteErrs
          (cleanup_failed_resources noDeleteErrs st eps cfgs mdls).1 eps cfgs
          mdls).1 =
        (cleanup_failed_resources noDeleteErrs st eps cfgs mdls).1) ∧
    (∀ (st : SMState) (eps cfgs mdls : List String),
      (cleanup_failed_resources noDeleteErrs
          (cleanup_failed_resources noDeleteErrs st eps cfgs mdls).1 eps cfgs
          mdls).2.filter (fun ev => ev.isDeletion) = []) ∧
    (∀ (deleteErrs : String → Bool) (st : SMState) (eps cfgs mdls : List String),
      (cleanup_failed_resources deleteErrs st eps cfgs mdls).2.length =
        eps.length + cfgs.length + mdls.length) := by
  refine ⟨fun st eps cfgs mdls => (cleanup_second_run st eps cfgs mdls).1,
    fun st eps cfgs mdls => (cleanup_second_run st eps cfgs mdls).2, ?_⟩
  intro deleteErrs st eps cfgs mdls
  unfold cleanup_failed_resources
  simp [sweepList_events_length]
  omega

/-- C5 (amended): one cleanup pass deletes an endpoint candidate exactly
when its queried status is in `{Failed, OutOfService}` — not only `Failed`:
the source's test is `status in ['Failed', 'OutOfService']` — leaving
endpoints in any other status in place, while endpoint-config and model
candidates are deleted unconditionally (whenever present) without any
status query, with absence reported as success. -/
theorem c5_delete_conditions :
    ∀ (st : SMState) (n : String),
      ((cleanupEndpointStep noDeleteErrs st n).2 = CleanupEvent.deleted n ↔
        ∃ s, epLookup st.endpoints n = some s ∧
          (s = EpStatus.Failed ∨ s = EpStatus.OutOfService)) ∧
      (((cleanupEndpointStep noDeleteErrs st n).2 = CleanupEvent.deleted n ∧
          (cleanupEndpointStep noDeleteErrs st n).1.endpoints =
            epRemove st.endpoints n) ∨
        ((cleanupEndpointStep noDeleteErrs st n).2 ≠ CleanupEvent.deleted n ∧
          (cleanupEndpointStep noDeleteErrs st n).1.endpoints = st.endpoints)) ∧
      ((cleanupConfigStep noDeleteErrs st n).2 = CleanupEvent.deleted n ↔
        n ∈ st.configs) ∧
      ((cleanupModelStep noDeleteErrs st n).2 = CleanupEvent.deleted n ↔
        n ∈ st.models) := by
  intro st n
  refine ⟨?_, ?_, ?_, ?_⟩
  · unfold cleanupEndpointStep
    cases hl : epLookup st.endpoints n with
    | none => simp
    | some s =>
      dsimp only
      split_ifs with hcond herr
      · simp [noDeleteErrs] at herr
      · simp [hcond]
      · simp_all
      · simp_all
  · unfold cleanupEndpointStep
    cases hl : epLookup st.endpoints n with
    | none => exact Or.inr ⟨by simp, rfl⟩
    | some s =>
      dsimp only
      split_ifs with hcond herr
      · simp [noDeleteErrs] at herr
      · exact Or.inl ⟨rfl, rfl⟩
      · exact Or.inr ⟨by simp, rfl⟩
      · exact Or.inr ⟨by simp, rfl⟩
  · unfold cleanupConfigStep
    split_ifs with h1 h2
    · simp [noDeleteErrs] at h2
    · simp [h1]
    · simp [h1]
  · unfold cleanupModelStep
    split_ifs with h1 h2
    · simp [noDeleteErrs] at h2
    · simp [h1]
    · simp [h1]

/-- C5 counterexample: the cleanup sweep deletes an endpoint whose queried
status is `OutOfService`, although `OutOfService ∉ {Failed}` — the claim's
"deleted if and only if status is in `{Failed}`" is false on the source,
whose test is `status in ['Failed', 'OutOfService']`. -/
theorem c5_counterexample :
    epLookup stateOutOfService.endpoints
        "sensor-prediction-endpoint-20250805-124642" =
      some EpStatus.OutOfService ∧
    EpStatus.OutOfService ≠ EpStatus.Failed ∧
    (cleanup_failed_resources noDeleteErrs stateOutOfService
        ["sensor-prediction-endpoint-20250805-124642"] [] []).1.endpoints = [] := by
  decide

theorem padDigitsN_length : ∀ w n, (padDigitsN w n).length = w := by
  intro w
  induction w with
  | zero => intro n; rfl
  | succ v ih => intro n; simp [padDigitsN, ih]

theorem padDigitsN_lt_ten : ∀ w n d, d ∈ padDigitsN w n → d < 10 := by
  intro w
  induction w with
  | zero => intro n d hd; cases hd
  | succ v ih =>
    intro n d hd
    rcases List.mem_append.mp hd with hmem | hmem
    · exact ih _ d hmem
    · rcases List.mem_singleton.mp hmem with rfl
      exact Nat.mod_lt _ (by norm_num)

theorem padDigitsN_inj : ∀ w n1 n2, n1 < 10 ^ w → n2 < 10 ^ w →
    padDigitsN w n1 = padDigitsN w n2 → n1 = n2 := by
  intro w
  induction w with
  | zero =>
    intro n1 n2 h1 h2 _
    simp [pow_zero] at h1 h2
    omega
  | succ v ih =>
    intro n1 n2 h1 h2 heq
    simp only [padDigitsN] at heq
    have hsplit := List.append_inj' heq rfl
    have hdiv : n1 / 10 = n2 / 10 := by
      refine ih _ _ ?_ ?_ hsplit.1 <;>
        [skip; skip] <;>
        · rw [Nat.div_lt_iff_lt_mul (by norm_num)]
          calc _ < 10 ^ (v + 1) := by assumption
            _ = 10 ^ v * 10 := by rw [pow_succ]
    have hmod : n1 % 10 = n2 % 10 := by
      have := hsplit.2
      simpa using this
    omega

theorem digitChar_inj : ∀ d1 d2, d1 < 10 → d2 < 10 →
    digitChar d1 = digitChar d2 → d1 = d2 := by
  intro d1 d2 h1 h2 h
  interval_cases d1 <;> interval_cases d2 <;> revert h <;> decide

theorem map_digitChar_inj : ∀ l1 l2 : List Nat, (∀ d ∈ l1, d < 10) →
    (∀ d ∈ l2, d < 10) → l1.map digitChar = l2.map digitChar → l1 = l2 := by
  intro l1
  induction l1 with
  | nil =>
    intro l2 _ _ h
    cases l2 with
    | nil => rfl
    | cons b t => simp at h
  | cons a t ih =>
    intro l2 hl1 hl2 h
    cases l2 with
    | nil => simp at h
    | cons b t2 =>
      simp only [List.map_cons, List.cons.injEq] at h
      have ha := digitChar_inj a b (hl1 a (List.mem_cons_self a t))
        (hl2 b (List.mem_cons_self b t2)) h.1
      have ht := ih t2 (fun d hd => hl1 d (List.mem_cons_of_mem a hd))
        (fun d hd => hl2 d (List.mem_cons_of_mem b hd)) h.2
      rw [ha, ht]

theorem segment_of_pad_inj (w n1 n2 : Nat) (h1 : n1 < 10 ^ w)
    (h2 : n2 < 10 ^ w)
    (heq : (padDigitsN w n1).map digitChar = (padDigitsN w n2).map digitChar) :
    n1 = n2 :=
  padDigitsN_inj w n1 n2 h1 h2
    (map_digitChar_inj _ _ (padDigitsN_lt_ten w n1) (padDigitsN_lt_ten w n2) heq)

theorem strftimeCompact_inj (t1 t2 : DateTimeSec) (h1 : t1.valid)
    (h2 : t2.valid) (heq : strftimeCompact t1 = strftimeCompact t2) :
    t1 = t2 := by
  rcases t1 with ⟨y1, mo1, dy1, hr1, mi1, sc1⟩
  rcases t2 with ⟨y2, mo2, dy2, hr2, mi2, sc2⟩
  unfold DateTimeSec.valid at h1 h2
  dsimp only at h1 h2
  unfold strftimeCompact at heq
  dsimp only at heq
  injection heq with hdata
  have e1 := List.append_inj hdata (by simp [padDigitsN_length])
  have e2 := List.append_inj e1.1 (by simp [padDigitsN_length])
  have e3 := List.append_inj e2.1 (by simp [padDigitsN_length])
  have e4 := e1.2
  injection e4 with _ e5
  have e6 := List.append_inj e5 (by simp [padDigitsN_length])
  have e7 := List.append_inj e6.1 (by simp [padDigitsN_length])
  have hy : y1 = y2 := segment_of_pad_inj 4 y1 y2 (by norm_num; omega)
    (by norm_num; omega) e3.1
  have hmo : mo1 = mo2 := segment_of_pad_inj 2 mo1 mo2 (by norm_num; omega)
    (by norm_num; omega) e3.2
  have hdy : dy1 = dy2 := segment_of_pad_inj 2 dy1 dy2 (by norm_num; omega)
    (by norm_num; omega) e2.2
  have hhr : hr1 = hr2 := segment_of_pad_inj 2 hr1 hr2 (by norm_num; omega)
    (by norm_num; omega) e7.1
  have hmi : mi1 = mi2 := segment_of_pad_inj 2 mi1 mi2 (by norm_num; omega)
    (by norm_num; omega) e7.2
  have hsc : sc1 = sc2 := segment_of_pad_inj 2 sc1 sc2 (by norm_num; omega)
    (by norm_num; omega) e6.2
  simp [hy, hmo, hdy, hhr, hmi, hsc]

/-- C8: the name generators produce names of the exact form
`{kindPrefix}-{timestamp}` with a second-resolution
`%Y%m%d-%H%M%S` timestamp, and for any two distinct second-resolution
invocation times (in particular any two times at least one second apart)
with the same prefix, the generated names are distinct. -/
theorem c8_resource_names_distinct :
    (∀ (pfx : String) (t : DateTimeSec),
      resourceName pfx t = pfx ++ "-" ++ strftimeCompact t) ∧
    (∀ (pfx : String) (t1 t2 : DateTimeSec), t1.valid → t2.valid → t1 ≠ t2 →
      resourceName pfx t1 ≠ resourceName pfx t2) := by
  refine ⟨fun pfx t => rfl, ?_⟩
  intro pfx t1 t2 h1 h2 hne heq
  apply hne
  apply strftimeCompact_inj t1 t2 h1 h2
  unfold resourceName at heq
  have hdata := congrArg String.data heq
  simp only [String.data_append] at hdata
  have := List.append_cancel_left hdata
  exact String.ext this

theorem c8_resource_names_distinct_witness :
    trainingJobName sampleTime1 ≠ trainingJobName sampleTime2 :=
  c8_resource_names_distinct.2 "sensor-prediction-training" sampleTime1 sampleTime2
    (by decide) (by decide) (by decide)

/-- C9 counterexample: on a control-plane state with no training data the
pipeline run fails (`run_full_ml_pipeline` returns `False`), yet the
`run_full_pipeline.py` process still exits with status 0, because the
`__main__` block discards the boolean result — contradicting the claim that
a failed run yields a non-zero exit code. -/
theorem c9_counterexample :
    (run_full_ml_pipeline envNoTrainingData).1 = false ∧
    run_full_pipeline_exit_code envNoTrainingData = 0 := by
  decide

/-- C9 (amended): exit-code behaviour differs per entry point: the
`run_full_pipeline.py` entry point always exits with status 0 — even when
the pipeline run fails, since the failure is only printed and the boolean
result is discarded — while `deploy.py`'s `run_command` exits with status 1
whenever its shell command fails and passes the output through on
success. -/
theorem c9_exit_codes :
    (∀ env : PipelineEnv, run_full_pipeline_exit_code env = 0) ∧
    (∀ e : String, run_command (Except.error e) = Except.error 1) ∧
    (∀ out : String, run_command (Except.ok out) = Except.ok out) :=
  ⟨fun _ => rfl, fun _ => rfl, fun _ => rfl⟩

/-- C10: for every control-plane state, `run_full_ml_pipeline` issues no
resource-creation call and no mutating call at all; when no `Completed`
training job is found among the three most recent, or the most recent
endpoint is not `InService`, it returns a failure result without ever
invoking the endpoint; and on a successful run its trace consists of the
three read-only list calls followed by exactly one endpoint invocation —
the invocation is its only externally effectful call. -/
theorem c10_pipeline_frame :
    ∀ env : PipelineEnv,
      (run_full_ml_pipeline env).2.filter SMCall.isCreate = [] ∧
      (run_full_ml_pipeline env).2.filter SMCall.isMutation = [] ∧
      ((run_full_ml_pipeline env).1 = true →
        (run_full_ml_pipeline env).2 =
          [SMCall.listObjects, SMCall.listTrainingJobs, SMCall.listEndpoints,
            SMCall.invokeEndpoint]) ∧
      (latestSuccessfulJob env = none ∨ activeEndpoint env = none →
        (run_full_ml_pipeline env).1 = false ∧
        SMCall.invokeEndpoint ∉ (run_full_ml_pipeline env).2) := by
  intro env
  unfold run_full_ml_pipeline
  by_cases hkc : env.trainingKeyCount = 0
  · rw [if_pos hkc]
    exact ⟨by decide, by decide, by decide, fun _ => ⟨rfl, by decide⟩⟩
  · rw [if_neg hkc]
    cases hj : latestSuccessfulJob env with
    | none =>
      dsimp only
      exact ⟨by decide, by decide, by decide, fun _ => ⟨rfl, by decide⟩⟩
    | some job =>
      cases he : activeEndpoint env with
      | none =>
        dsimp only
        exact ⟨by decide, by decide, by decide, fun _ => ⟨rfl, by decide⟩⟩
      | some ep =>
        cases hir : env.invokeResult with
        | ok v =>
          dsimp only
          exact ⟨by decide, by decide, fun _ => rfl, fun h => absurd h (by simp)⟩
        | error e =>
          dsimp only
          exact ⟨by decide, by decide, by decide, fun h => absurd h (by simp)⟩

theorem c10_pipeline_frame_witness :
    (run_full_ml_pipeline envPipelineOk).2 =
      [SMCall.listObjects, SMCall.listTrainingJobs, SMCall.listEndpoints,
        SMCall.invokeEndpoint] ∧
    ((run_full_ml_pipeline envNoCompletedJob).1 = false ∧
      SMCall.invokeEndpoint ∉ (run_full_ml_pipeline envNoCompletedJob).2) := by
  constructor
  · exact (c10_pipeline_frame envPipelineOk).2.2.1 (by decide)
  · exact (c10_pipeline_frame envNoCompletedJob).2.2.2 (Or.inl (by decide))
